import Mathlib

/-!
Verification of the user-activity-service repository
(`src/services/UserActivityService.ts`, `src/types/UserActivity.ts`).

The TypeScript service is shallowly embedded: JS numbers are modelled as
exact integers/rationals, `Math.log` is abstracted as an explicit function
parameter `jsLn` (the natural logarithm is transcendental, so it cannot be
evaluated exactly; every theorem below holds for an arbitrary `jsLn`, hence
in particular for the real `Math.log`), `Date#getHours` / `Date#getDay`
(locale-dependent) are abstracted as parameters `hourOf : Int → Fin 24` and
`dayOf : Int → Fin 7` over epoch-millisecond timestamps, and the external
collaborators (Redis cache, HTTP source, Winston logger) are modelled by an
environment of outcome functions plus explicit log/effect traces.
-/

namespace UserActivitySvc

/-! ### Data model (`src/types/UserActivity.ts`) -/

/-- The closed `ActivityType` enumeration, as its runtime string values. -/
def activityTypeValues : List String :=
  ["PAGE_VIEW", "CLICK", "SCROLL", "FORM_SUBMISSION", "VIDEO_PLAY",
   "VIDEO_PAUSE", "VIDEO_COMPLETE", "DOWNLOAD", "SHARE", "COMMENT"]

/-- A user activity record.  `type` is a `String` because the records come
from `response.data as UserActivity[]` — an unchecked cast, so at runtime the
kind is whatever string the remote source sent.  `timestamp` is the epoch
millisecond value of `new Date(activity.timestamp)`. `durationSec` is a JS
number (modelled as an exact rational), absent when `undefined`. -/
structure UserActivity where
  id : String
  userId : String
  type : String
  timestamp : Int
  path : String
  durationSec : Option ℚ := none
deriving DecidableEq, Repr

/-- A filter object, as the JS runtime sees it: the entries of the object in
key-insertion order.  A value of `none` models a key explicitly present with
value `undefined` (as in `{ timeRangeInDays }` when the argument is absent);
values are already stringified as the template literal would print them.
JS objects never repeat a key, so well-formed filters have `Nodup` keys. -/
abbrev UserActivityFilter := List (String × Option String)

/-- The `EngagementMetrics` record.  `activityByType` is the JS object as an
association list in key-insertion order (first occurrence order). -/
structure EngagementMetrics where
  totalActivities : Nat
  activityByType : List (String × Nat)
  averageDurationSec : Int
  mostActiveHour : Int
  mostActiveDay : Int
  daysSinceLastActivity : Int
  engagementScore : Int
deriving DecidableEq, Repr

/-! ### Cache key codec (`generateCacheKey`, lines 336-359) -/

/-- The standard base64 alphabet. -/
def base64Alphabet : List Char :=
  "ABCDEFGHIJKLMNOPQRSTUVWXYZabcdefghijklmnopqrstuvwxyz0123456789+/".toList

/-- Character for a 6-bit group. -/
def b64Char (n : Nat) : Char := base64Alphabet.getD n 'A'

/-- Base64-encode a byte list, 3 bytes → 4 chars, `=`-padded. -/
def base64Chunks : List Nat → List Char
  | [] => []
  | [b0] =>
      [b64Char (b0 / 4), b64Char (b0 % 4 * 16), '=', '=']
  | [b0, b1] =>
      [b64Char (b0 / 4), b64Char (b0 % 4 * 16 + b1 / 16), b64Char (b1 % 16 * 4), '=']
  | b0 :: b1 :: b2 :: rest =>
      b64Char (b0 / 4) :: b64Char (b0 % 4 * 16 + b1 / 16) ::
      b64Char (b1 % 16 * 4 + b2 / 64) :: b64Char (b2 % 64) :: base64Chunks rest

/-- `Buffer.from(s).toString('base64')`: base64 of the UTF-8 bytes of `s`. -/
def base64Encode (s : String) : String :=
  String.mk (base64Chunks (s.toUTF8.toList.map UInt8.toNat))

/-- The comparator `([keyA], [keyB]) => keyA.localeCompare(keyB)` used by the
stable `Array.prototype.sort`: keep `a` before `b` when `a`'s key is ≤. -/
def filterEntryLE (a b : String × String) : Bool := a.1 ≤ b.1

/-- `generateCacheKey(prefix, userId, filter)` (source lines 336-359).
The first argument is the source's `prefix` parameter.  Mirrors the source:
base key `user-activity:<userId>:<prefix>`; if a filter object with at least
one key is given, drop `undefined`-valued entries, sort the survivors by key
(stable sort, `localeCompare` order), join as `name=value` with `&`, and
append the base64 of that string as a final `:`-separated segment — only when
at least one entry survived. -/
def generateCacheKey (ns userId : String) (filter : Option UserActivityFilter) : String :=
  let key := "user-activity:" ++ userId ++ ":" ++ ns
  match filter with
  | none => key
  | some f =>
    if f.length > 0 then
      let sortedEntries : List (String × String) :=
        (f.filterMap fun e : String × Option String => e.2.map fun v => (e.1, v)).mergeSort filterEntryLE
      if sortedEntries.length > 0 then
        let filterString :=
          String.intercalate "&" (sortedEntries.map fun e => e.1 ++ "=" ++ e.2)
        key ++ ":" ++ base64Encode filterString
      else key
    else key

/-- The cache-key shape stated by the spec, amended to the source's actual
segment order: `user-activity:<subjectId>:<namespace>`, with `:<tag>`
appended exactly when at least one filter field survives, where the tag is
the base64 encoding of the sorted `name=value&...` join of the survivors. -/
def cacheKeyShape (ns userId : String) (filter : Option UserActivityFilter) : String :=
  let base := "user-activity:" ++ userId ++ ":" ++ ns
  let survivors : List (String × String) :=
    (match filter with
     | none => ([] : List (String × String))
     | some f => f.filterMap fun e : String × Option String =>
         e.2.map fun v => (e.1, v)).mergeSort filterEntryLE
  if survivors.isEmpty then base
  else base ++ ":" ++
    base64Encode (String.intercalate "&" (survivors.map fun e => e.1 ++ "=" ++ e.2))

/-! ### JS-runtime helpers used by the service -/

/-- One step of `[...new Set(l)]`: keep first occurrences, in order. -/
def insertUnique (seen : List String) (x : String) : List String :=
  if x ∈ seen then seen else seen ++ [x]

/-- `[...new Set(l)]`: deduplicate, keeping first occurrences in order. -/
def jsSetDedup (l : List String) : List String := l.foldl insertUnique []

/-- `Array.prototype.indexOf`: first index of `v`, `-1` when absent. -/
def jsIndexOf : List Nat → Nat → Int
  | [], _ => -1
  | x :: xs, v =>
      if x = v then 0 else
        let r := jsIndexOf xs v
        if r = -1 then -1 else r + 1

/-- `Math.max(...l)` over a bucket array (the bucket lists are nonempty and
hold naturals, so the `0` base never exceeds a genuine maximum). -/
def jsMax (l : List Nat) : Nat := l.foldl max 0

/-- `Math.round(q)`: round half up, also for negative arguments, which is
exactly Mathlib's `round` (`round q = ⌊q + 1/2⌋`). -/
def jsRound (q : ℚ) : Int := round q

/-- `typeCounts[t] = (typeCounts[t] || 0) + 1` on a JS object in
key-insertion order: bump an existing key, else append it with count 1. -/
def bumpType : List (String × Nat) → String → List (String × Nat)
  | [], t => [(t, 1)]
  | (k, c) :: rest, t =>
      if k = t then (k, c + 1) :: rest else (k, c) :: bumpType rest t

/-- `arr[i]++` on a counter array. -/
def bumpAt (l : List Nat) (i : Nat) : List Nat := l.set i (l.getD i 0 + 1)

/-! ### Metrics aggregation (`processActivities`, lines 223-291) -/

/-- The mutable locals of the `activities.forEach` loop in
`processActivities`. -/
structure AggState where
  totalDuration : ℚ
  hourCounts : List Nat
  dayCounts : List Nat
  typeCounts : List (String × Nat)
  latest : Int
deriving DecidableEq, Repr

/-- Loop-local initial values: zero duration, 24 zeroed hour buckets, 7
zeroed day buckets, empty per-kind counts, `latestActivityDate = new Date(0)`
i.e. epoch millisecond 0. -/
def aggInit : AggState :=
  { totalDuration := 0
    hourCounts := List.replicate 24 0
    dayCounts := List.replicate 7 0
    typeCounts := []
    latest := 0 }

/-- One iteration of the `forEach` body (lines 247-267): bump the per-kind
count, accumulate the duration when truthy (`if (activity.durationSec)` —
a duration of `0` is falsy and skipped), update the latest timestamp on
strict increase, and bump the hour and day buckets. -/
def aggStep (hourOf : Int → Fin 24) (dayOf : Int → Fin 7)
    (s : AggState) (a : UserActivity) : AggState :=
  { totalDuration :=
      match a.durationSec with
      | some d => if d = 0 then s.totalDuration else s.totalDuration + d
      | none => s.totalDuration
    hourCounts := bumpAt s.hourCounts (hourOf a.timestamp)
    dayCounts := bumpAt s.dayCounts (dayOf a.timestamp)
    typeCounts := bumpType s.typeCounts a.type
    latest := if a.timestamp > s.latest then a.timestamp else s.latest }

/-- The whole `forEach` loop. -/
def aggregate (hourOf : Int → Fin 24) (dayOf : Int → Fin 7)
    (activities : List UserActivity) : AggState :=
  activities.foldl (aggStep hourOf dayOf) aggInit

/-- `calculateEngagementScore` (lines 299-326), over exact rationals with the
natural logarithm abstracted as `jsLn`.  `0.4` is the exact rational `2/5`.
The source rounds the weighted sum first and then clamps:
`Math.min(100, Math.max(0, Math.round(score)))`. -/
def calculateEngagementScore (jsLn : ℚ → ℚ) (m : EngagementMetrics) : Int :=
  let activityScore := jsLn ((m.totalActivities : ℚ) + 1) * 10
  let recencyFactor := max 0 (1 - (m.daysSinceLastActivity : ℚ) / 30)
  let durationFactor := min 1 ((m.averageDurationSec : ℚ) / 300)
  let activityTypes := m.activityByType.length
  let diversityFactor := min 1 ((activityTypes : ℚ) / 5)
  let score :=
    activityScore * 0.4 + recencyFactor * 30 + durationFactor * 15 + diversityFactor * 15
  min 100 (max 0 (jsRound score))

/-- The score exactly as §4.4 / §6 of the spec words it: the same weighted
sum, but "clamp to [0,100] and round" — clamp first, then round. -/
def specEngagementScore (jsLn : ℚ → ℚ) (m : EngagementMetrics) : Int :=
  let activityScore := jsLn ((m.totalActivities : ℚ) + 1) * 10
  let recencyFactor := max 0 (1 - (m.daysSinceLastActivity : ℚ) / 30)
  let durationFactor := min 1 ((m.averageDurationSec : ℚ) / 300)
  let diversityFactor := min 1 ((m.activityByType.length : ℚ) / 5)
  let score :=
    activityScore * 0.4 + recencyFactor * 30 + durationFactor * 15 + diversityFactor * 15
  jsRound (min 100 (max 0 score))

/-- The metrics record as `processActivities` (non-empty branch) fills it in
lines 269-284, just before the final `engagementScore` assignment: loop
state turned into averages, first-index-of-maximum buckets, and the floored
day difference.  (The source guards the average with `activities.length > 0`,
which is always true in this branch, so the division is unconditional.) -/
def preScoreMetrics (hourOf : Int → Fin 24) (dayOf : Int → Fin 7)
    (now : Int) (activities : List UserActivity) : EngagementMetrics :=
  let s := aggregate hourOf dayOf activities
  { totalActivities := activities.length
    activityByType := s.typeCounts
    averageDurationSec := jsRound (s.totalDuration / (activities.length : ℚ))
    mostActiveHour := jsIndexOf s.hourCounts (jsMax s.hourCounts)
    mostActiveDay := jsIndexOf s.dayCounts (jsMax s.dayCounts)
    daysSinceLastActivity := Int.fdiv (now - s.latest) (1000 * 60 * 60 * 24)
    engagementScore := 0 }

/-- `processActivities` (lines 223-291).  The early return hands back the
all-zero defaults for an empty input; otherwise the record from
`preScoreMetrics` gets its `engagementScore` computed from itself as the
last step, exactly as the source mutates `metrics.engagementScore` last. -/
def processActivities (jsLn : ℚ → ℚ) (hourOf : Int → Fin 24) (dayOf : Int → Fin 7)
    (now : Int) (activities : List UserActivity) : EngagementMetrics :=
  let init : EngagementMetrics :=
    { totalActivities := activities.length
      activityByType := []
      averageDurationSec := 0
      mostActiveHour := 0
      mostActiveDay := 0
      daysSinceLastActivity := 0
      engagementScore := 0 }
  if activities.length = 0 then init
  else
    let m := preScoreMetrics hourOf dayOf now activities
    { m with engagementScore := calculateEngagementScore jsLn m }

/-! ### Service layer: external-world model and the service operations -/

/-- A failure of the cache collaborator, as `getFromCache` / `setInCache`
can encounter it: either the Redis access failed or `JSON.parse` threw. -/
inductive CacheErr
  | storeAccess (msg : String)
  | deserialization (msg : String)
deriving DecidableEq, Repr

/-- A failure of the remote source (an axios error). -/
structure UpstreamErr where
  message : String
deriving DecidableEq, Repr

/-- Winston log levels used by the service. -/
inductive LogLevel
  | debug
  | info
  | warn
  | logError
deriving DecidableEq, Repr

/-- One structured log event.  `userId` records whether the structured
context of the call carried the subject id. -/
structure LogEntry where
  level : LogLevel
  message : String
  userId : Option String := none
deriving DecidableEq, Repr

/-- Outcomes of the external collaborators for one service call.  Reads and
writes are functions of the cache key, and the source fetch is a function of
the user id and the filter the service sends, so that different keys/filters
may behave differently. -/
structure ServiceEnv where
  activityCacheRead : String → Except CacheErr (Option (List UserActivity))
  metricsCacheRead : String → Except CacheErr (Option EngagementMetrics)
  sourceFetch : String → Option UserActivityFilter → Except UpstreamErr (List UserActivity)
  cacheWrite : String → Except CacheErr Unit
  isoDaysAgo : Int → String

/-- `getFromCache` (lines 367-380): absent stays absent, and ANY failure
(store access or deserialization) is downgraded to a warning plus absent —
the method never propagates a failure. -/
def getFromCache {α : Type} (outcome : Except CacheErr (Option α)) :
    Option α × List LogEntry :=
  match outcome with
  | .ok v => (v, [])
  | .error _ =>
      (none, [{ level := .warn, message := "Cache retrieval failed, falling back to API" }])

/-- `setInCache` (lines 390-402): a write failure is logged at warning level
and swallowed; the method always returns normally. -/
def setInCache (outcome : Except CacheErr Unit) : List LogEntry :=
  match outcome with
  | .ok _ => []
  | .error _ => [{ level := .warn, message := "Failed to cache data" }]

/-- Equality of collaborator outcomes is decidable (needed so that concrete
witness computations can be settled by `decide`). -/
instance {ε α : Type} [DecidableEq ε] [DecidableEq α] : DecidableEq (Except ε α) :=
  fun x y =>
    match x, y with
    | .ok a, .ok b =>
        if h : a = b then .isTrue (by rw [h]) else .isFalse (by simp [h])
    | .ok _, .error _ => .isFalse (by simp)
    | .error _, .ok _ => .isFalse (by simp)
    | .error e, .error e' =>
        if h : e = e' then .isTrue (by rw [h]) else .isFalse (by simp [h])

/-- Everything observable about one `getUserActivity` call: the value
returned or error thrown, how many times the remote source was called, which
cache writes were issued (`setInCache` call sites, with their key and
payload), and the log trace. -/
structure FetchOutcome where
  result : Except UpstreamErr (List UserActivity)
  sourceCalls : Nat
  cacheWriteAttempts : List (String × List UserActivity)
  logs : List LogEntry
deriving DecidableEq, Repr

/-- `getUserActivity` (lines 57-90): derive the cache key, try the cache, on
a hit return the cached records; on a miss call the source once, issue a
best-effort cache write of the fetched records, and return them; a source
failure is logged via `handleError` (error level, with the user id) and
rethrown unchanged. -/
def getUserActivity (env : ServiceEnv) (userId : String)
    (filter : Option UserActivityFilter) : FetchOutcome :=
  let cacheKey := generateCacheKey "activity" userId filter
  let readRes := getFromCache (env.activityCacheRead cacheKey)
  match readRes.1 with
  | some cachedData =>
      { result := .ok cachedData
        sourceCalls := 0
        cacheWriteAttempts := []
        logs := readRes.2 ++
          [{ level := .debug, message := "Retrieved user activity from cache",
             userId := some userId }] }
  | none =>
      match env.sourceFetch userId filter with
      | .ok activities =>
          { result := .ok activities
            sourceCalls := 1
            cacheWriteAttempts := [(cacheKey, activities)]
            logs := readRes.2 ++
              [{ level := .debug, message := "Fetching user activity from API",
                 userId := some userId }] ++
              setInCache (env.cacheWrite cacheKey) }
      | .error e =>
          { result := .error e
            sourceCalls := 1
            cacheWriteAttempts := []
            logs := readRes.2 ++
              [{ level := .debug, message := "Fetching user activity from API",
                 userId := some userId },
               { level := .logError, message := "Failed to fetch user activity",
                 userId := some userId }] }

/-- The `filter` object built by `calculateEngagementMetrics` (lines
118-124): `if (timeRangeInDays)` is JS truthiness, so both an absent argument
and `0` leave the filter empty; otherwise `startDate` is set to the ISO
string of now minus that many days (abstracted as `env.isoDaysAgo`). -/
def deriveTimeFilter (isoDaysAgo : Int → String) (timeRangeInDays : Option Int) :
    UserActivityFilter :=
  match timeRangeInDays with
  | none => []
  | some d => if d = 0 then [] else [("startDate", some (isoDaysAgo d))]

/-- Everything observable about one `calculateEngagementMetrics` call. -/
structure MetricsOutcome where
  result : Except UpstreamErr EngagementMetrics
  sourceCalls : Nat
  logs : List LogEntry
deriving DecidableEq, Repr

/-- `calculateEngagementMetrics` (lines 100-144): metrics cache key embeds
`{ timeRangeInDays }` (a one-key object whose value may be `undefined`); on a
metrics-cache hit return the cached metrics; on a miss derive the time
filter, delegate to `getUserActivity`, aggregate, issue a best-effort metrics
cache write, and return; a fetch failure is logged via `handleError` (error
level, with the user id) and rethrown. -/
def calculateEngagementMetrics (env : ServiceEnv) (jsLn : ℚ → ℚ)
    (hourOf : Int → Fin 24) (dayOf : Int → Fin 7) (now : Int)
    (userId : String) (timeRangeInDays : Option Int) : MetricsOutcome :=
  let cacheKey :=
    generateCacheKey "metrics" userId
      (some [("timeRangeInDays", timeRangeInDays.map toString)])
  let readRes := getFromCache (env.metricsCacheRead cacheKey)
  match readRes.1 with
  | some cachedMetrics =>
      { result := .ok cachedMetrics
        sourceCalls := 0
        logs := readRes.2 ++
          [{ level := .debug, message := "Retrieved engagement metrics from cache",
             userId := some userId }] }
  | none =>
      let filter := deriveTimeFilter env.isoDaysAgo timeRangeInDays
      let fo := getUserActivity env userId (some filter)
      match fo.result with
      | .ok activities =>
          { result := .ok (processActivities jsLn hourOf dayOf now activities)
            sourceCalls := fo.sourceCalls
            logs := readRes.2 ++ fo.logs ++ setInCache (env.cacheWrite cacheKey) }
      | .error e =>
          { result := .error e
            sourceCalls := fo.sourceCalls
            logs := readRes.2 ++ fo.logs ++
              [{ level := .logError,
                 message := "Failed to calculate engagement metrics",
                 userId := some userId }] }

/-- `bulkProcessUserMetrics` (lines 179-213): de-duplicate the ids with JS
`Set` semantics, run `calculateEngagementMetrics` for each unique id and let
every outcome settle (`Promise.allSettled` — no outcome can reject the bulk
call), then collect fulfilled outcomes into the result map and log each
rejected outcome at error level (the bulk-level entry itself carries no user
id — only the per-call `handleError` entry does), plus a final info entry.
Returns the map (as an association list over the `Nodup` unique ids) and the
full log trace. -/
def bulkProcessUserMetrics (env : ServiceEnv) (jsLn : ℚ → ℚ)
    (hourOf : Int → Fin 24) (dayOf : Int → Fin 7) (now : Int)
    (userIds : List String) (timeRangeInDays : Option Int) :
    List (String × EngagementMetrics) × List LogEntry :=
  let uniqueUserIds := jsSetDedup userIds
  let settled := uniqueUserIds.map fun uid =>
    (uid, calculateEngagementMetrics env jsLn hourOf dayOf now uid timeRangeInDays)
  let metricsMap := settled.filterMap fun p =>
    match p.2.result with
    | .ok m => some (p.1, m)
    | .error _ => none
  let callLogs := settled.flatMap fun p => p.2.logs
  let failLogs : List LogEntry := settled.filterMap fun p =>
    match p.2.result with
    | .ok _ => none
    | .error _ =>
        some { level := .logError, message := "Failed to process user metrics" }
  (metricsMap,
   callLogs ++ failLogs ++
     [{ level := .info, message := "Bulk processed user metrics" }])

/-! ### Helper lemmas -/

/-- `round` is monotone on ℚ. -/
lemma roundMono {x y : ℚ} (h : x ≤ y) : round x ≤ round y := by
  rw [round_eq, round_eq]
  exact Int.floor_mono (by linarith)

/-- Rounding first and clamping to `[0, 100]` afterwards (the source's
`Math.min(100, Math.max(0, Math.round(score)))`) agrees with clamping first
and rounding afterwards (the spec's "clamp to [0,100] and round"). -/
lemma clamp_round_comm (s : ℚ) :
    min 100 (max 0 (jsRound s)) = jsRound (min 100 (max 0 s)) := by
  unfold jsRound
  rcases le_total s 0 with h | h
  · have h2 : round s ≤ 0 := by
      have := roundMono h
      simpa using this
    rw [max_eq_left h, max_eq_left h2]
    norm_num
  · rcases le_total 100 s with h' | h'
    · have h0 : (0 : ℚ) ≤ s := le_trans (by norm_num) h'
      have hr : (100 : ℤ) ≤ round s := by
        have := roundMono h'
        simpa using this
      rw [max_eq_right h0, min_eq_left h']
      rw [max_eq_right (le_trans (by norm_num) hr), min_eq_left hr]
      norm_num
    · have hr0 : (0 : ℤ) ≤ round s := by
        have := roundMono h
        simpa using this
      have hr100 : round s ≤ 100 := by
        have := roundMono h'
        simpa using this
      rw [max_eq_right h, min_eq_right h', max_eq_right hr0, min_eq_right hr100]

/-- The source's score computation equals the spec's wording of it. -/
lemma calculateEngagementScore_eq_spec (jsLn : ℚ → ℚ) (m : EngagementMetrics) :
    calculateEngagementScore jsLn m = specEngagementScore jsLn m := by
  unfold calculateEngagementScore specEngagementScore
  exact clamp_round_comm _

/-- The score is clamped into `[0, 100]` whatever the inputs are. -/
lemma calculateEngagementScore_bounds (jsLn : ℚ → ℚ) (m : EngagementMetrics) :
    0 ≤ calculateEngagementScore jsLn m ∧ calculateEngagementScore jsLn m ≤ 100 := by
  unfold calculateEngagementScore
  exact ⟨le_min (by norm_num) (le_max_left _ _), min_le_left _ _⟩

/-! ### Claim theorems -/

/-- **C8**: aggregating the empty record list returns the all-zero metrics
snapshot — total count 0, empty per-kind counts, average duration 0,
most-active hour 0, most-active day 0, days-since-last 0 and engagement
score 0 — without error. -/
theorem processActivities_empty (jsLn : ℚ → ℚ) (hourOf : Int → Fin 24)
    (dayOf : Int → Fin 7) (now : Int) :
    processActivities jsLn hourOf dayOf now [] =
      { totalActivities := 0, activityByType := [], averageDurationSec := 0,
        mostActiveHour := 0, mostActiveDay := 0, daysSinceLastActivity := 0,
        engagementScore := 0 } := rfl

/-- **C2**: for every non-empty record list the engagement score equals the
spec's exact weighted formula (ln-based activity score with weight 0.4,
recency ≤ 30, duration ≤ 15, diversity ≤ 15, clamped to [0,100] and
rounded; rounding-then-clamping and clamping-then-rounding agree here), and
for any input the score satisfies `0 ≤ score ≤ 100`. -/
theorem engagementScore_formula_and_bounds (jsLn : ℚ → ℚ) (hourOf : Int → Fin 24)
    (dayOf : Int → Fin 7) (now : Int) (activities : List UserActivity) :
    (activities ≠ [] →
      (processActivities jsLn hourOf dayOf now activities).engagementScore =
        specEngagementScore jsLn (preScoreMetrics hourOf dayOf now activities)) ∧
    0 ≤ (processActivities jsLn hourOf dayOf now activities).engagementScore ∧
    (processActivities jsLn hourOf dayOf now activities).engagementScore ≤ 100 := by
  unfold processActivities
  by_cases he : activities.length = 0
  · have : activities = [] := List.length_eq_zero.mp he
    subst this
    refine ⟨fun h => absurd rfl h, ?_, ?_⟩ <;> simp
  · simp only [if_neg he]
    refine ⟨fun _ => ?_, ?_, ?_⟩
    · exact calculateEngagementScore_eq_spec jsLn _
    · exact (calculateEngagementScore_bounds jsLn _).1
    · exact (calculateEngagementScore_bounds jsLn _).2

/-- A record used to instantiate hypotheses of the claim theorems. -/
def sampleActivity : UserActivity :=
  { id := "a1", userId := "u1", type := "CLICK", timestamp := 0, path := "/" }

/-- Witness for **C2** at the concrete one-record list. -/
theorem engagementScore_formula_and_bounds_witness :
    ((processActivities (fun _ => 0) (fun _ => 0) (fun _ => 0) 0
        [sampleActivity]).engagementScore =
      specEngagementScore (fun _ => 0)
        (preScoreMetrics (fun _ => 0) (fun _ => 0) 0 [sampleActivity])) ∧
    0 ≤ (processActivities (fun _ => 0) (fun _ => 0) (fun _ => 0) 0
        [sampleActivity]).engagementScore ∧
    (processActivities (fun _ => 0) (fun _ => 0) (fun _ => 0) 0
        [sampleActivity]).engagementScore ≤ 100 := by
  have h := engagementScore_formula_and_bounds (fun _ => 0) (fun _ => 0) (fun _ => 0) 0
    [sampleActivity]
  exact ⟨h.1 (by simp), h.2.1, h.2.2⟩

/-- **C6 counterexample**: with no filter the derived key is
`user-activity:<subjectId>:<namespace>`, not the claimed
`<namespace>:<subjectId>` — the subject id comes first, behind a literal
`user-activity` marker. -/
theorem generateCacheKey_shape_counterexample :
    generateCacheKey "activity" "u1" none = "user-activity:u1:activity" ∧
    generateCacheKey "activity" "u1" none ≠ "activity:u1" := by
  constructor
  · rfl
  · decide

/-- **C6 amended**: the derived cache key is exactly
`user-activity:<subjectId>:<namespace>`, with `:<tag>` appended exactly when
at least one filter field survives, where the tag base64-encodes the sorted
`name=value&...` join of the surviving fields. -/
theorem generateCacheKey_shape_amended (ns u : String)
    (filter : Option UserActivityFilter) :
    generateCacheKey ns u filter = cacheKeyShape ns u filter := by
  cases filter with
  | none => simp [generateCacheKey, cacheKeyShape]
  | some f =>
    simp only [generateCacheKey, cacheKeyShape]
    by_cases hf : f.length > 0
    · simp only [if_pos hf]
      by_cases hs :
          ((f.filterMap fun e : String × Option String =>
            e.2.map fun v => (e.1, v)).mergeSort filterEntryLE).length > 0
      · rw [if_pos hs, if_neg ?_]
        · intro hemp
          rw [List.isEmpty_iff] at hemp
          rw [hemp] at hs
          simp at hs
      · rw [if_neg hs, if_pos ?_]
        · have : ((f.filterMap fun e : String × Option String =>
              e.2.map fun v => (e.1, v)).mergeSort filterEntryLE) = [] := by
            have := Nat.eq_zero_of_not_pos hs
            exact List.length_eq_zero.mp this
          rw [this]
          rfl
    · have : f = [] := List.length_eq_zero.mp (Nat.eq_zero_of_not_pos hf)
      subst this
      simp [List.mergeSort_nil]

/-- **C10**: `calculateEngagementMetrics` with `timeRangeInDays = 0` derives
the same (empty) filter as an absent time range — `if (timeRangeInDays)` is
falsy at `0`, so no `startDate` lower bound is produced and the fetch runs
over the unbounded window — and, whenever the metrics cache gives the same
answer for the two cache keys (e.g. both miss), the whole call returns the
same result. -/
theorem timeRangeZero_behaves_as_absent (env : ServiceEnv) (jsLn : ℚ → ℚ)
    (hourOf : Int → Fin 24) (dayOf : Int → Fin 7) (now : Int) (userId : String)
    (h : env.metricsCacheRead
        (generateCacheKey "metrics" userId
          (some [("timeRangeInDays", some (toString (0 : Int)))])) =
      env.metricsCacheRead
        (generateCacheKey "metrics" userId (some [("timeRangeInDays", none)]))) :
    deriveTimeFilter env.isoDaysAgo (some 0) = deriveTimeFilter env.isoDaysAgo none ∧
    (calculateEngagementMetrics env jsLn hourOf dayOf now userId (some 0)).result =
      (calculateEngagementMetrics env jsLn hourOf dayOf now userId none).result := by
  refine ⟨rfl, ?_⟩
  simp only [calculateEngagementMetrics, Option.map_some', Option.map_none',
    deriveTimeFilter]
  rw [h]
  simp only [Int.reduceEq, if_true, ite_true]
  cases (getFromCache (env.metricsCacheRead
      (generateCacheKey "metrics" userId (some [("timeRangeInDays", none)])))).1 with
  | some m => rfl
  | none => cases (getUserActivity env userId (some [])).result <;> rfl

/-- A fully concrete environment for the claim witnesses: every cache read
misses, the source returns no records, cache writes succeed. -/
def witnessEnv : ServiceEnv :=
  { activityCacheRead := fun _ => .ok none
    metricsCacheRead := fun _ => .ok none
    sourceFetch := fun _ _ => .ok []
    cacheWrite := fun _ => .ok ()
    isoDaysAgo := fun _ => "1970-01-01T00:00:00.000Z" }

/-- Witness for **C10** in the all-miss environment. -/
theorem timeRangeZero_behaves_as_absent_witness :
    deriveTimeFilter witnessEnv.isoDaysAgo (some 0) =
      deriveTimeFilter witnessEnv.isoDaysAgo none ∧
    (calculateEngagementMetrics witnessEnv (fun _ => 0) (fun _ => 0) (fun _ => 0)
        0 "u1" (some 0)).result =
      (calculateEngagementMetrics witnessEnv (fun _ => 0) (fun _ => 0) (fun _ => 0)
        0 "u1" none).result :=
  timeRangeZero_behaves_as_absent witnessEnv (fun _ => 0) (fun _ => 0) (fun _ => 0)
    0 "u1" rfl

/-- **C4**: cache failures are absorbed locally and never propagate —
`getFromCache` returns absent on any store-access or deserialization
failure instead of throwing; a call whose cache reads all fail returns
exactly what it returns when they all miss (for `getUserActivity` and for
`calculateEngagementMetrics`); and the outcome of the cache-write
collaborator never changes either operation's result. -/
theorem cacheFailures_never_propagate (env : ServiceEnv) (jsLn : ℚ → ℚ)
    (hourOf : Int → Fin 24) (dayOf : Int → Fin 7) (now : Int)
    (userId : String) (filter : Option UserActivityFilter) (tr : Option Int)
    (e e' : CacheErr) :
    ((getFromCache (α := List UserActivity) (.error e)).1 = none) ∧
    ((getUserActivity { env with activityCacheRead := fun _ => .error e }
        userId filter).result =
      (getUserActivity { env with activityCacheRead := fun _ => .ok none }
        userId filter).result) ∧
    ((calculateEngagementMetrics
        { env with activityCacheRead := fun _ => .error e,
                   metricsCacheRead := fun _ => .error e' }
        jsLn hourOf dayOf now userId tr).result =
      (calculateEngagementMetrics
        { env with activityCacheRead := fun _ => .ok none,
                   metricsCacheRead := fun _ => .ok none }
        jsLn hourOf dayOf now userId tr).result) ∧
    (∀ w₁ w₂ : String → Except CacheErr Unit,
      ((getUserActivity { env with cacheWrite := w₁ } userId filter).result =
        (getUserActivity { env with cacheWrite := w₂ } userId filter).result) ∧
      ((calculateEngagementMetrics { env with cacheWrite := w₁ }
          jsLn hourOf dayOf now userId tr).result =
        (calculateEngagementMetrics { env with cacheWrite := w₂ }
          jsLn hourOf dayOf now userId tr).result)) := by
  refine ⟨rfl, ?_, ?_, fun w₁ w₂ => ⟨?_, ?_⟩⟩
  · cases hsf : env.sourceFetch userId filter <;>
      simp [getUserActivity, getFromCache, hsf]
  · cases hsf : env.sourceFetch userId
        (some (deriveTimeFilter env.isoDaysAgo tr)) <;>
      simp [calculateEngagementMetrics, getUserActivity, getFromCache, hsf]
  · cases hr : env.activityCacheRead (generateCacheKey "activity" userId filter) with
    | ok v =>
        cases v with
        | some d => simp [getUserActivity, getFromCache, hr]
        | none =>
            cases hsf : env.sourceFetch userId filter <;>
              simp [getUserActivity, getFromCache, hr, hsf]
    | error er =>
        cases hsf : env.sourceFetch userId filter <;>
          simp [getUserActivity, getFromCache, hr, hsf]
  · cases hm : env.metricsCacheRead
        (generateCacheKey "metrics" userId
          (some [("timeRangeInDays", tr.map toString)])) with
    | ok v =>
        cases v with
        | some d => simp [calculateEngagementMetrics, getFromCache, hm]
        | none =>
            cases hr : env.activityCacheRead
                (generateCacheKey "activity" userId
                  (some (deriveTimeFilter env.isoDaysAgo tr))) with
            | ok v' =>
                cases v' with
                | some d =>
                    simp [calculateEngagementMetrics, getUserActivity,
                      getFromCache, hm, hr]
                | none =>
                    cases hsf : env.sourceFetch userId
                        (some (deriveTimeFilter env.isoDaysAgo tr)) <;>
                      simp [calculateEngagementMetrics, getUserActivity,
                        getFromCache, hm, hr, hsf]
            | error er =>
                cases hsf : env.sourceFetch userId
                    (some (deriveTimeFilter env.isoDaysAgo tr)) <;>
                  simp [calculateEngagementMetrics, getUserActivity,
                    getFromCache, hm, hr, hsf]
    | error em =>
        cases hr : env.activityCacheRead
            (generateCacheKey "activity" userId
              (some (deriveTimeFilter env.isoDaysAgo tr))) with
        | ok v' =>
            cases v' with
            | some d =>
                simp [calculateEngagementMetrics, getUserActivity,
                  getFromCache, hm, hr]
            | none =>
                cases hsf : env.sourceFetch userId
                    (some (deriveTimeFilter env.isoDaysAgo tr)) <;>
                  simp [calculateEngagementMetrics, getUserActivity,
                    getFromCache, hm, hr, hsf]
        | error er =>
            cases hsf : env.sourceFetch userId
                (some (deriveTimeFilter env.isoDaysAgo tr)) <;>
              simp [calculateEngagementMetrics, getUserActivity,
                getFromCache, hm, hr, hsf]

/-- **C1**: cache-aside correctness of `getUserActivity`: when the cache
read returns a stored value, the remote source is never called and the
cached records are returned; when it returns absent, the source is called
exactly once and, on its success, the fetched records are written to the
cache under the derived key and returned. -/
theorem getUserActivity_cache_aside (env : ServiceEnv) (userId : String)
    (filter : Option UserActivityFilter) :
    (∀ d, env.activityCacheRead (generateCacheKey "activity" userId filter) =
        .ok (some d) →
      (getUserActivity env userId filter).result = .ok d ∧
      (getUserActivity env userId filter).sourceCalls = 0) ∧
    (env.activityCacheRead (generateCacheKey "activity" userId filter) = .ok none →
      (getUserActivity env userId filter).sourceCalls = 1 ∧
      ∀ a, env.sourceFetch userId filter = .ok a →
        (getUserActivity env userId filter).result = .ok a ∧
        (getUserActivity env userId filter).cacheWriteAttempts =
          [(generateCacheKey "activity" userId filter, a)]) := by
  constructor
  · intro d hd
    simp [getUserActivity, getFromCache, hd]
  · intro hn
    constructor
    · cases hsf : env.sourceFetch userId filter <;>
        simp [getUserActivity, getFromCache, hn, hsf]
    · intro a ha
      simp [getUserActivity, getFromCache, hn, ha]

/-- Environment whose activity-cache read hits with one stored record. -/
def hitEnv : ServiceEnv :=
  { witnessEnv with activityCacheRead := fun _ => .ok (some [sampleActivity]) }

/-- Witness for **C1**: a concrete cache hit and a concrete cache miss. -/
theorem getUserActivity_cache_aside_witness :
    ((getUserActivity hitEnv "u1" none).result = .ok [sampleActivity] ∧
     (getUserActivity hitEnv "u1" none).sourceCalls = 0) ∧
    ((getUserActivity witnessEnv "u1" none).sourceCalls = 1 ∧
     (getUserActivity witnessEnv "u1" none).result = .ok [] ∧
     (getUserActivity witnessEnv "u1" none).cacheWriteAttempts =
       [(generateCacheKey "activity" "u1" none, [])]) := by
  refine ⟨(getUserActivity_cache_aside hitEnv "u1" none).1 [sampleActivity] rfl, ?_⟩
  have h := (getUserActivity_cache_aside witnessEnv "u1" none).2 rfl
  exact ⟨h.1, (h.2 [] rfl).1, (h.2 [] rfl).2⟩

/-! ### Bucket argmax lemmas for the tie-break claim -/

lemma le_foldl_max (l : List Nat) (b : Nat) : b ≤ l.foldl max b := by
  induction l generalizing b with
  | nil => simp
  | cons x xs ih => exact le_trans (le_max_left b x) (ih (max b x))

lemma mem_le_foldl_max (l : List Nat) (b : Nat) : ∀ x ∈ l, x ≤ l.foldl max b := by
  induction l generalizing b with
  | nil => simp
  | cons y ys ih =>
    intro x hx
    rcases List.mem_cons.mp hx with rfl | h
    · exact le_trans (le_max_right b x) (le_foldl_max ys (max b x))
    · exact ih (max b y) x h

lemma foldl_max_mem (l : List Nat) (b : Nat) :
    l.foldl max b ∈ l ∨ l.foldl max b = b := by
  induction l generalizing b with
  | nil => exact Or.inr rfl
  | cons x xs ih =>
    rcases ih (max b x) with h | h
    · exact Or.inl (List.mem_cons_of_mem _ h)
    · rcases max_choice b x with h' | h'
      · exact Or.inr (by rw [List.foldl_cons, h, h'])
      · exact Or.inl (by rw [List.foldl_cons, h, h']; exact List.mem_cons_self x xs)

/-- `Math.max(...l)` is attained in any nonempty bucket list. -/
lemma jsMax_mem (l : List Nat) (h : l ≠ []) : jsMax l ∈ l := by
  unfold jsMax
  rcases foldl_max_mem l 0 with hm | hm
  · exact hm
  · cases l with
    | nil => exact absurd rfl h
    | cons x xs =>
      have hx : x ≤ (x :: xs).foldl max 0 :=
        mem_le_foldl_max _ 0 x (List.mem_cons_self x xs)
      rw [hm] at hx ⊢
      exact (Nat.le_zero.mp hx) ▸ List.mem_cons_self x xs

/-- Every element is bounded by `jsMax`. -/
lemma mem_le_jsMax (l : List Nat) : ∀ x ∈ l, x ≤ jsMax l :=
  mem_le_foldl_max l 0

/-- `indexOf` at a present value returns the first index holding it. -/
lemma jsIndexOf_first (l : List Nat) (v : Nat) (h : v ∈ l) :
    ∃ i : Nat, jsIndexOf l v = (i : Int) ∧ i < l.length ∧
      l.getD i 0 = v ∧ ∀ j < i, l.getD j 0 ≠ v := by
  induction l with
  | nil => simp at h
  | cons x xs ih =>
    by_cases hx : x = v
    · exact ⟨0, by simp [jsIndexOf, hx], by simp, by simp [hx], by omega⟩
    · have hv : v ∈ xs := by
        rcases List.mem_cons.mp h with h' | h'
        · exact absurd h'.symm hx
        · exact h'
      obtain ⟨i, hi, hlen, hg, hforall⟩ := ih hv
      have hne : (i : Int) ≠ -1 := by omega
      refine ⟨i + 1, ?_, by simpa using hlen, by simpa using hg, ?_⟩
      · simp [jsIndexOf, hx, hi, hne]
      · intro j hj
        cases j with
        | zero => simpa using hx
        | succ j' => simpa using hforall j' (by omega)

/-- The bucket arrays of the aggregation keep their initial lengths. -/
lemma aggregate_bucket_lengths (hourOf : Int → Fin 24) (dayOf : Int → Fin 7)
    (activities : List UserActivity) (s : AggState) :
    ((activities.foldl (aggStep hourOf dayOf) s).hourCounts.length =
       s.hourCounts.length) ∧
    ((activities.foldl (aggStep hourOf dayOf) s).dayCounts.length =
       s.dayCounts.length) := by
  induction activities generalizing s with
  | nil => exact ⟨rfl, rfl⟩
  | cons a rest ih =>
    have h := ih (aggStep hourOf dayOf s a)
    simpa [aggStep, bumpAt, List.length_set] using h

/-- **C9**: for every non-empty record list the most-active hour is the
lowest index attaining the maximum among the 24 hour buckets, and the
most-active day is the lowest index attaining the maximum among the 7 day
buckets. -/
theorem mostActive_lowest_index (jsLn : ℚ → ℚ) (hourOf : Int → Fin 24)
    (dayOf : Int → Fin 7) (now : Int) (activities : List UserActivity)
    (h : activities ≠ []) :
    (∃ i : Nat,
      (processActivities jsLn hourOf dayOf now activities).mostActiveHour = (i : Int) ∧
      (aggregate hourOf dayOf activities).hourCounts.getD i 0 =
        jsMax (aggregate hourOf dayOf activities).hourCounts ∧
      ∀ j < i, (aggregate hourOf dayOf activities).hourCounts.getD j 0 <
        jsMax (aggregate hourOf dayOf activities).hourCounts) ∧
    (∃ i : Nat,
      (processActivities jsLn hourOf dayOf now activities).mostActiveDay = (i : Int) ∧
      (aggregate hourOf dayOf activities).dayCounts.getD i 0 =
        jsMax (aggregate hourOf dayOf activities).dayCounts ∧
      ∀ j < i, (aggregate hourOf dayOf activities).dayCounts.getD j 0 <
        jsMax (aggregate hourOf dayOf activities).dayCounts) := by
  have hlen := aggregate_bucket_lengths hourOf dayOf activities aggInit
  have hlenh : (aggregate hourOf dayOf activities).hourCounts.length = 24 := by
    simpa [aggInit] using hlen.1
  have hlend : (aggregate hourOf dayOf activities).dayCounts.length = 7 := by
    simpa [aggInit] using hlen.2
  have hne : activities.length ≠ 0 := fun h0 => h (List.length_eq_zero.mp h0)
  have hproc :
      processActivities jsLn hourOf dayOf now activities =
        (let m := preScoreMetrics hourOf dayOf now activities
         { m with engagementScore := calculateEngagementScore jsLn m }) := by
    simp [processActivities, hne]
  constructor
  · have hnil : (aggregate hourOf dayOf activities).hourCounts ≠ [] := by
      intro hEq
      rw [hEq] at hlenh
      simp at hlenh
    obtain ⟨i, hi, hlt, hg, hfirst⟩ :=
      jsIndexOf_first _ _ (jsMax_mem _ hnil)
    refine ⟨i, ?_, hg, ?_⟩
    · rw [hproc]
      simpa [preScoreMetrics] using hi
    · intro j hj
      have hjlen : j < (aggregate hourOf dayOf activities).hourCounts.length :=
        lt_trans hj hlt
      have hmem : (aggregate hourOf dayOf activities).hourCounts.getD j 0 ∈
          (aggregate hourOf dayOf activities).hourCounts := by
        rw [List.getD_eq_getElem _ _ hjlen]
        exact List.getElem_mem hjlen
      exact lt_of_le_of_ne (mem_le_jsMax _ _ hmem) (hfirst j hj)
  · have hnil : (aggregate hourOf dayOf activities).dayCounts ≠ [] := by
      intro hEq
      rw [hEq] at hlend
      simp at hlend
    obtain ⟨i, hi, hlt, hg, hfirst⟩ :=
      jsIndexOf_first _ _ (jsMax_mem _ hnil)
    refine ⟨i, ?_, hg, ?_⟩
    · rw [hproc]
      simpa [preScoreMetrics] using hi
    · intro j hj
      have hjlen : j < (aggregate hourOf dayOf activities).dayCounts.length :=
        lt_trans hj hlt
      have hmem : (aggregate hourOf dayOf activities).dayCounts.getD j 0 ∈
          (aggregate hourOf dayOf activities).dayCounts := by
        rw [List.getD_eq_getElem _ _ hjlen]
        exact List.getElem_mem hjlen
      exact lt_of_le_of_ne (mem_le_jsMax _ _ hmem) (hfirst j hj)

/-- Witness for **C9** at the concrete one-record list. -/
theorem mostActive_lowest_index_witness :
    (∃ i : Nat,
      (processActivities (fun _ => 0) (fun _ => 0) (fun _ => 0) 0
        [sampleActivity]).mostActiveHour = (i : Int) ∧
      (aggregate (fun _ => 0) (fun _ => 0) [sampleActivity]).hourCounts.getD i 0 =
        jsMax (aggregate (fun _ => 0) (fun _ => 0) [sampleActivity]).hourCounts ∧
      ∀ j < i,
        (aggregate (fun _ => 0) (fun _ => 0) [sampleActivity]).hourCounts.getD j 0 <
          jsMax (aggregate (fun _ => 0) (fun _ => 0) [sampleActivity]).hourCounts) ∧
    (∃ i : Nat,
      (processActivities (fun _ => 0) (fun _ => 0) (fun _ => 0) 0
        [sampleActivity]).mostActiveDay = (i : Int) ∧
      (aggregate (fun _ => 0) (fun _ => 0) [sampleActivity]).dayCounts.getD i 0 =
        jsMax (aggregate (fun _ => 0) (fun _ => 0) [sampleActivity]).dayCounts ∧
      ∀ j < i,
        (aggregate (fun _ => 0) (fun _ => 0) [sampleActivity]).dayCounts.getD j 0 <
          jsMax (aggregate (fun _ => 0) (fun _ => 0) [sampleActivity]).dayCounts) :=
  mostActive_lowest_index (fun _ => 0) (fun _ => 0) (fun _ => 0) 0 [sampleActivity]
    (by simp)

/-! ### Per-kind counter keys -/

/-- Bumping a kind inserts its key with JS-Set (first-occurrence) order. -/
lemma bumpType_keys (tc : List (String × Nat)) (t : String) :
    (bumpType tc t).map Prod.fst = insertUnique (tc.map Prod.fst) t := by
  induction tc with
  | nil => simp [bumpType, insertUnique]
  | cons p rest ih =>
    obtain ⟨k, c⟩ := p
    by_cases hk : k = t
    · subst hk
      simp [bumpType, insertUnique]
    · by_cases ht : t ∈ rest.map Prod.fst
      · simp [bumpType, hk, insertUnique, ih, ht, Ne.symm hk]
      · simp [bumpType, hk, insertUnique, ih, ht, Ne.symm hk]

/-- The kind keys accumulated by the loop are the first-occurrence
deduplication of the kind strings seen. -/
lemma foldl_typeCounts_keys (hourOf : Int → Fin 24) (dayOf : Int → Fin 7)
    (activities : List UserActivity) (s : AggState) :
    (activities.foldl (aggStep hourOf dayOf) s).typeCounts.map Prod.fst =
      activities.foldl (fun seen a => insertUnique seen a.type)
        (s.typeCounts.map Prod.fst) := by
  induction activities generalizing s with
  | nil => rfl
  | cons a rest ih =>
    rw [List.foldl_cons, List.foldl_cons, ih]
    congr 1
    exact bumpType_keys s.typeCounts a.type

/-- **C7 counterexample**: a record whose kind string is not in the closed
enumeration is silently counted — it appears as a key of the per-kind
counts, with no rejection or flagging. -/
theorem unknownKind_counterexample :
    (processActivities (fun _ => 0) (fun _ => 0) (fun _ => 0) 0
      [{ id := "b1", userId := "u1", type := "BOGUS", timestamp := 0,
         path := "/" }]).activityByType = [("BOGUS", 1)] ∧
    "BOGUS" ∉ activityTypeValues := by
  exact ⟨rfl, by decide⟩

/-- **C7 amended**: the aggregator accepts every record unconditionally; the
per-kind counts carry exactly the kind strings observed in the input (in
first-occurrence order), whether or not they belong to the closed
enumeration — unknown kinds are silently counted, not rejected or flagged. -/
theorem activityByType_keys_observed (jsLn : ℚ → ℚ) (hourOf : Int → Fin 24)
    (dayOf : Int → Fin 7) (now : Int) (activities : List UserActivity) :
    (processActivities jsLn hourOf dayOf now activities).activityByType.map
        Prod.fst =
      jsSetDedup (activities.map fun a => a.type) := by
  by_cases he : activities.length = 0
  · have : activities = [] := List.length_eq_zero.mp he
    subst this
    rfl
  · show (processActivities jsLn hourOf dayOf now activities).activityByType.map
      Prod.fst = (activities.map fun a => a.type).foldl insertUnique []
    rw [List.foldl_map]
    simp only [processActivities, if_neg he]
    have := foldl_typeCounts_keys hourOf dayOf activities aggInit
    simpa [preScoreMetrics, aggregate, aggInit] using this

/-! ### Bulk processing -/

/-- A failing `calculateEngagementMetrics` call leaves an error-level log
entry carrying its subject id (written by `handleError` in its catch). -/
lemma calcMetrics_failure_logged (env : ServiceEnv) (jsLn : ℚ → ℚ)
    (hourOf : Int → Fin 24) (dayOf : Int → Fin 7) (now : Int)
    (uid : String) (tr : Option Int) (e : UpstreamErr)
    (h : (calculateEngagementMetrics env jsLn hourOf dayOf now uid tr).result =
      .error e) :
    ({ level := .logError, message := "Failed to calculate engagement metrics",
       userId := some uid } : LogEntry) ∈
      (calculateEngagementMetrics env jsLn hourOf dayOf now uid tr).logs := by
  simp only [calculateEngagementMetrics] at h ⊢
  cases hm : (getFromCache (env.metricsCacheRead
      (generateCacheKey "metrics" uid
        (some [("timeRangeInDays", tr.map toString)])))).1 with
  | some m =>
      rw [hm] at h
      simp at h
  | none =>
      rw [hm] at h
      cases hres : (getUserActivity env uid
          (some (deriveTimeFilter env.isoDaysAgo tr))).result with
      | ok a =>
          rw [hres] at h
          simp at h
      | error e' => simp

/-- Membership in the bulk result map characterised: exactly the unique
subject ids whose metrics computation succeeded, with their metrics. -/
lemma bulk_mem_iff (env : ServiceEnv) (jsLn : ℚ → ℚ) (hourOf : Int → Fin 24)
    (dayOf : Int → Fin 7) (now : Int) (userIds : List String) (tr : Option Int)
    (uid : String) (m : EngagementMetrics) :
    (uid, m) ∈ (bulkProcessUserMetrics env jsLn hourOf dayOf now userIds tr).1 ↔
      uid ∈ jsSetDedup userIds ∧
      (calculateEngagementMetrics env jsLn hourOf dayOf now uid tr).result =
        .ok m := by
  simp only [bulkProcessUserMetrics]
  constructor
  · intro hm
    obtain ⟨p, hp, hmatch⟩ := List.mem_filterMap.mp hm
    obtain ⟨uid', huid', rfl⟩ := List.mem_map.mp hp
    cases hres : (calculateEngagementMetrics env jsLn hourOf dayOf now uid'
        tr).result with
    | ok m' =>
        rw [hres] at hmatch
        simp only [Option.some.injEq, Prod.mk.injEq] at hmatch
        obtain ⟨rfl, rfl⟩ := hmatch
        exact ⟨huid', hres⟩
    | error e =>
        rw [hres] at hmatch
        simp at hmatch
  · rintro ⟨huid, hres⟩
    apply List.mem_filterMap.mpr
    refine ⟨(uid, calculateEngagementMetrics env jsLn hourOf dayOf now uid tr),
      List.mem_map_of_mem _ huid, ?_⟩
    rw [hres]

/-- **C3**: the bulk call returns a mapping containing exactly the unique
subject ids whose per-subject computation succeeded, with their metrics;
a failed subject never appears in the mapping, and its failure is logged at
error level with its subject id.  (The bulk operation is a total function
into a pair — per-subject failures cannot surface as a thrown failure.) -/
theorem bulkProcess_partial_failure (env : ServiceEnv) (jsLn : ℚ → ℚ)
    (hourOf : Int → Fin 24) (dayOf : Int → Fin 7) (now : Int)
    (userIds : List String) (tr : Option Int) :
    (∀ uid m,
      (uid, m) ∈ (bulkProcessUserMetrics env jsLn hourOf dayOf now userIds tr).1 ↔
        uid ∈ jsSetDedup userIds ∧
        (calculateEngagementMetrics env jsLn hourOf dayOf now uid tr).result =
          .ok m) ∧
    (∀ uid e, uid ∈ jsSetDedup userIds →
      (calculateEngagementMetrics env jsLn hourOf dayOf now uid tr).result =
        .error e →
      (∀ m, (uid, m) ∉
        (bulkProcessUserMetrics env jsLn hourOf dayOf now userIds tr).1) ∧
      (∃ entry ∈ (bulkProcessUserMetrics env jsLn hourOf dayOf now userIds tr).2,
        entry.level = .logError ∧ entry.userId = some uid)) := by
  refine ⟨fun uid m => bulk_mem_iff env jsLn hourOf dayOf now userIds tr uid m,
    fun uid e hmem herr => ⟨fun m hm => ?_, ?_⟩⟩
  · have h := (bulk_mem_iff env jsLn hourOf dayOf now userIds tr uid m).mp hm
    rw [herr] at h
    simp at h
  · refine ⟨⟨.logError, "Failed to calculate engagement metrics", some uid⟩,
      ?_, rfl, rfl⟩
    simp only [bulkProcessUserMetrics]
    apply List.mem_append_left
    apply List.mem_append_left
    exact List.mem_flatMap.mpr
      ⟨(uid, calculateEngagementMetrics env jsLn hourOf dayOf now uid tr),
        List.mem_map_of_mem _ hmem,
        calcMetrics_failure_logged env jsLn hourOf dayOf now uid tr e herr⟩

/-- Environment in which subject `u2`'s fetch fails and every other fetch
returns no records. -/
def failEnv : ServiceEnv :=
  { witnessEnv with
    sourceFetch := fun uid _ =>
      if uid = "u2" then .error { message := "boom" } else .ok [] }

/-- Witness for **C3**: among `["u1", "u2", "u1"]` with `u2` failing, `u2`
is absent from the mapping and logged with its id. -/
theorem bulkProcess_partial_failure_witness :
    (∀ m, ("u2", m) ∉
      (bulkProcessUserMetrics failEnv (fun _ => 0) (fun _ => 0) (fun _ => 0) 0
        ["u1", "u2", "u1"] none).1) ∧
    (∃ entry ∈ (bulkProcessUserMetrics failEnv (fun _ => 0) (fun _ => 0)
        (fun _ => 0) 0 ["u1", "u2", "u1"] none).2,
      entry.level = .logError ∧ entry.userId = some "u2") :=
  (bulkProcess_partial_failure failEnv (fun _ => 0) (fun _ => 0) (fun _ => 0) 0
    ["u1", "u2", "u1"] none).2 "u2" { message := "boom" } (by decide) rfl

/-! ### Cache-key determinism -/

/-- Two sorted association lists that are permutations of one another and
have pairwise-distinct keys are equal (key order `≤` is not antisymmetric on
pairs, so distinctness of the keys does the work antisymmetry usually
does). -/
lemma sorted_perm_nodup_keys_eq :
    ∀ {l₁ l₂ : List (String × String)}, l₁.Perm l₂ →
      l₁.Pairwise (fun a b => a.1 ≤ b.1) →
      l₂.Pairwise (fun a b => a.1 ≤ b.1) →
      (l₁.map Prod.fst).Nodup → l₁ = l₂ := by
  intro l₁
  induction l₁ with
  | nil =>
    intro l₂ hp _ _ _
    exact (hp.symm.eq_nil).symm
  | cons a t ih =>
    intro l₂ hp hs₁ hs₂ hnd
    cases l₂ with
    | nil => exact absurd hp.eq_nil (by simp)
    | cons b s =>
      have hab : a = b := by
        by_contra hne
        have ha2 : a ∈ b :: s := hp.mem_iff.mp (List.mem_cons_self a t)
        have hb1 : b ∈ a :: t := hp.mem_iff.mpr (List.mem_cons_self b s)
        have has : a ∈ s := by
          rcases List.mem_cons.mp ha2 with h | h
          · exact absurd h hne
          · exact h
        have hbt : b ∈ t := by
          rcases List.mem_cons.mp hb1 with h | h
          · exact absurd h.symm hne
          · exact h
        have h1 : a.1 ≤ b.1 := (List.pairwise_cons.mp hs₁).1 b hbt
        have h2 : b.1 ≤ a.1 := (List.pairwise_cons.mp hs₂).1 a has
        rw [List.map_cons] at hnd
        exact (List.nodup_cons.mp hnd).1
          (le_antisymm h1 h2 ▸ List.mem_map_of_mem Prod.fst hbt)
      subst hab
      rw [List.map_cons] at hnd
      have hteq : t = s :=
        ih hp.cons_inv (List.pairwise_cons.mp hs₁).2 (List.pairwise_cons.mp hs₂).2
          (List.nodup_cons.mp hnd).2
      rw [hteq]

/-- Dropping `undefined`-valued entries keeps the keys a sublist of the
original key list. -/
lemma filterMap_keys_sublist (f : UserActivityFilter) :
    (((f.filterMap fun e : String × Option String =>
        e.2.map fun v => (e.1, v)).map Prod.fst)).Sublist (f.map Prod.fst) := by
  induction f with
  | nil => simp
  | cons e rest ih =>
    obtain ⟨k, ov⟩ := e
    cases ov with
    | none =>
        simp only [List.filterMap_cons, Option.map_none', List.map_cons]
        exact ih.cons k
    | some v =>
        simp only [List.filterMap_cons, Option.map_some', List.map_cons]
        exact ih.cons₂ k

/-- The comparator is transitive. -/
lemma filterEntryLE_trans : ∀ a b c : String × String,
    filterEntryLE a b → filterEntryLE b c → filterEntryLE a c := by
  intro a b c h1 h2
  simp only [filterEntryLE, decide_eq_true_eq] at *
  exact le_trans h1 h2

/-- The comparator is total. -/
lemma filterEntryLE_total : ∀ a b : String × String,
    (filterEntryLE a b || filterEntryLE b a) = true := by
  intro a b
  simp only [filterEntryLE, Bool.or_eq_true, decide_eq_true_eq]
  exact le_total a.1 b.1

/-- **C5**: cache-key determinism — for every namespace, subject id and two
filters that are permutations of the same field set with the same values
(JS objects never repeat a key, hence the `Nodup` hypothesis on the field
names), the derived cache key is the identical string. -/
theorem cacheKey_deterministic (ns u : String) (f₁ f₂ : UserActivityFilter)
    (hperm : f₁.Perm f₂) (hnd : (f₁.map Prod.fst).Nodup) :
    generateCacheKey ns u (some f₁) = generateCacheKey ns u (some f₂) := by
  have hsurv : (f₁.filterMap fun e : String × Option String =>
      e.2.map fun v => (e.1, v)).Perm
        (f₂.filterMap fun e : String × Option String =>
          e.2.map fun v => (e.1, v)) :=
    hperm.filterMap _
  have hsortperm :
      ((f₁.filterMap fun e : String × Option String =>
        e.2.map fun v => (e.1, v)).mergeSort filterEntryLE).Perm
        ((f₂.filterMap fun e : String × Option String =>
          e.2.map fun v => (e.1, v)).mergeSort filterEntryLE) :=
    ((List.mergeSort_perm _ _).trans hsurv).trans (List.mergeSort_perm _ _).symm
  have hpw₁ :
      ((f₁.filterMap fun e : String × Option String =>
        e.2.map fun v => (e.1, v)).mergeSort filterEntryLE).Pairwise
        (fun a b => a.1 ≤ b.1) := by
    have := @List.sorted_mergeSort (String × String) filterEntryLE
      filterEntryLE_trans filterEntryLE_total
      (f₁.filterMap fun e : String × Option String => e.2.map fun v => (e.1, v))
    exact this.imp fun h => by simpa [filterEntryLE] using h
  have hpw₂ :
      ((f₂.filterMap fun e : String × Option String =>
        e.2.map fun v => (e.1, v)).mergeSort filterEntryLE).Pairwise
        (fun a b => a.1 ≤ b.1) := by
    have := @List.sorted_mergeSort (String × String) filterEntryLE
      filterEntryLE_trans filterEntryLE_total
      (f₂.filterMap fun e : String × Option String => e.2.map fun v => (e.1, v))
    exact this.imp fun h => by simpa [filterEntryLE] using h
  have hndsort :
      (((f₁.filterMap fun e : String × Option String =>
        e.2.map fun v => (e.1, v)).mergeSort filterEntryLE).map Prod.fst).Nodup := by
    have hsub := (filterMap_keys_sublist f₁).nodup hnd
    exact ((List.mergeSort_perm _ filterEntryLE).map Prod.fst).nodup_iff.mpr hsub
  have hsorteq :
      (f₁.filterMap fun e : String × Option String =>
        e.2.map fun v => (e.1, v)).mergeSort filterEntryLE =
        (f₂.filterMap fun e : String × Option String =>
          e.2.map fun v => (e.1, v)).mergeSort filterEntryLE :=
    sorted_perm_nodup_keys_eq hsortperm hpw₁ hpw₂ hndsort
  simp only [generateCacheKey]
  rw [hperm.length_eq, hsorteq]

/-- Witness for **C5** at two concrete two-field filters in opposite
insertion orders. -/
theorem cacheKey_deterministic_witness :
    generateCacheKey "activity" "u1"
        (some [("startDate", some "2023-01-01"), ("endDate", some "2023-12-31")]) =
      generateCacheKey "activity" "u1"
        (some [("endDate", some "2023-12-31"), ("startDate", some "2023-01-01")]) :=
  cacheKey_deterministic "activity" "u1" _ _ (by decide) (by decide)

end UserActivitySvc
